import Mathlib

/-!
# Murmurations firmware — verification of the streaming pipeline

A shallow embedding of the ESP32 firmware in `Firmware-idf/src/main.c`:
the packet data model (`packet_header_t`, `buffer_t`, `msg_t`), the two
producer functions `QI2Smsg` (microphone / I2S path) and `QADCmsg`
(analog / ADC path), and the delivery function `send_msg` together with
its connection/failure-counter state.

Machine integers are modelled as `Nat` bit patterns (a 16-bit sample is
its bit pattern, `0 ≤ v < 2^16`); the client socket is an `Int`, with
`client_socket < 0` meaning "disconnected", exactly as the C code tests
it.  The network is modelled by Boolean success flags for the two `send`
calls, and the bytes a `send` call would put on the wire are computed by
an explicit little-endian serializer of the packed structs (the ESP32 is
little-endian).
-/

namespace Murmurations

/-- `#define MIC_BUFFER_SIZE 256` — number of 16-bit samples in a packet. -/
def MIC_BUFFER_SIZE : Nat := 256

/-- `#define ADC_BUFFER_SIZE 256` — number of raw ADC samples. -/
def ADC_BUFFER_SIZE : Nat := 256

/-- Size in bytes of one ADC conversion record (TYPE2 format on this SoC). -/
def SOC_ADC_DIGI_RESULT_BYTES : Nat := 4

/-- `#define SOURCE_MIC 0` -/
def SOURCE_MIC : Nat := 0

/-- `#define SOURCE_ADC 1` -/
def SOURCE_ADC : Nat := 1

/-- The packed wire header of `main.c`:
`uint8_t source; uint8_t metadata; uint16_t length; uint64_t timestamp;`
(12 bytes when packed). Fields are `Nat` bit patterns. -/
structure packet_header_t where
  source : Nat
  metadata : Nat
  length : Nat
  timestamp : Nat
deriving DecidableEq, Repr

/-- The payload part of a message: `int16_t data[256]; size_t end;`.
`data` holds the 16-bit sample bit patterns actually written (the C array
slots beyond `end` are never sent), `bufEnd` is the C field `end`
(a reserved word in Lean). -/
structure buffer_t where
  data : List Nat
  bufEnd : Nat
deriving DecidableEq, Repr

/-- `msg_t`: one queued message = header + payload buffer. -/
structure msg_t where
  header : packet_header_t
  buffer : buffer_t
deriving DecidableEq, Repr

/-- Outcome of one producer call (`QI2Smsg` / `QADCmsg`):
the block is silently dropped (client gate), the capacity `assert` fires
(which aborts the process under ESP-IDF), or a message is built and
enqueued on `outbound_queue`. -/
inductive QResult where
  | dropped
  | assertFail
  | enqueued (m : msg_t)
deriving DecidableEq, Repr

/-- `QI2Smsg(int16_t *buffer, int size)` from `main.c`:
gate on `client_socket < 0`; `num_samples = size/2`;
`assert(num_samples <= MIC_BUFFER_SIZE)`; build the message with
`source = SOURCE_MIC`, `metadata = 0`, `length = num_samples` (a
`uint16_t` assignment), `timestamp = now`, `end = num_samples`, and
`data[j] = buffer[2*j + skipFirst]` with `skipFirst = 1`; enqueue it. -/
def QI2Smsg (client_socket : Int) (buffer : List Nat) (size : Nat) (now : Nat) :
    QResult :=
  if client_socket < 0 then .dropped
  else
    let num_samples := size / 2
    if num_samples ≤ MIC_BUFFER_SIZE then
      .enqueued
        { header := { source := SOURCE_MIC, metadata := 0,
                      length := num_samples % 65536, timestamp := now },
          buffer := { data := (List.range num_samples).map
                        (fun j => buffer.getD (2 * j + 1) 0),
                      bufEnd := num_samples } }
    else .assertFail

/-- One decoded ADC conversion record: the `type2` view of
`adc_digi_output_data_t` exposes a `channel` field and a `data` field.
The vendor bit layout inside the 4-byte record is opaque hardware detail;
the record is modelled by its two decoded fields. -/
structure adc_digi_output_data_t where
  channel : Nat
  data : Nat
deriving DecidableEq, Repr

/-- The 16-bit ADC sample packing of `main.c`:
`((chan & 0xF) << 12) | (data & 0x0FFF)` — upper 4 bits channel, lower
12 bits conversion data. -/
def packAdc (chan data : Nat) : Nat :=
  ((chan &&& 0xF) <<< 12) ||| (data &&& 0xFFF)

/-- `QADCmsg(uint8_t *buffer, int size)` from `main.c`:
gate on `client_socket < 0`; `num_conv = size / SOC_ADC_DIGI_RESULT_BYTES`;
`assert(num_conv <= ADC_BUFFER_SIZE)`; build the message with
`source = SOURCE_ADC`, `metadata = 0`, `length = num_conv`,
`timestamp = now`, `end = num_conv`, and `data[i]` the `packAdc` packing
of record `i`; enqueue it. -/
def QADCmsg (client_socket : Int) (records : List adc_digi_output_data_t)
    (size : Nat) (now : Nat) : QResult :=
  if client_socket < 0 then .dropped
  else
    let num_conv := size / SOC_ADC_DIGI_RESULT_BYTES
    if num_conv ≤ ADC_BUFFER_SIZE then
      .enqueued
        { header := { source := SOURCE_ADC, metadata := 0,
                      length := num_conv % 65536, timestamp := now },
          buffer := { data := (List.range num_conv).map
                        (fun i => packAdc (records.getD i ⟨0, 0⟩).channel
                                          (records.getD i ⟨0, 0⟩).data),
                      bufEnd := num_conv } }
    else .assertFail

/-- The effect of a producer call on the outbound queue: only an
`enqueued` outcome appends a message (`xQueueSend`); `dropped` and a
(pre-abort) `assertFail` leave the queue untouched. -/
def enqueueResult (q : List msg_t) : QResult → List msg_t
  | .enqueued m => q ++ [m]
  | _ => q

/-- Little-endian byte serialization of a `w`-byte machine integer, the
in-memory layout `send` transmits on this (little-endian) target. -/
def toBytes : Nat → Nat → List Nat
  | 0, _ => []
  | w + 1, n => n % 256 :: toBytes w (n / 256)

/-- The 12 bytes of the packed `packet_header_t` in memory order:
1-byte `source`, 1-byte `metadata`, 2-byte `length`, 8-byte `timestamp`. -/
def encodeHeader (h : packet_header_t) : List Nat :=
  toBytes 1 h.source ++ toBytes 1 h.metadata ++
    toBytes 2 h.length ++ toBytes 8 h.timestamp

/-- The `msg->buffer.end * sizeof(int16_t)` bytes the second `send`
transmits: the first `end` 16-bit samples of the data array,
little-endian. -/
def encodePayload (b : buffer_t) : List Nat :=
  ((b.data.take b.bufEnd).map (toBytes 2)).flatten

/-- Whole-packet encoding: the bytes of the two consecutive `send`
calls, header first. -/
def encodePacket (m : msg_t) : List Nat :=
  encodeHeader m.header ++ encodePayload m.buffer

/-- The delivery-side state of `main.c`: the global `client_socket`
(negative = no client) and the `static int errors` consecutive-failure
counter inside `send_msg`. -/
structure DeliveryState where
  client_socket : Int
  errors : Nat
deriving DecidableEq, Repr

/-- `send_msg(msg_t *msg)` from `main.c`.  `headerOk` / `dataOk` say
whether the respective `send` call succeeds (`ret ≥ 0`).  Returns the
new state and the list of byte strings whose transmission was attempted,
in order.  Faithful points: early return when `client_socket < 0`
(no write, no state change); on a failed send, `if (errors++ > 10)`
(post-increment: the old counter value is compared, then incremented)
closes the socket; the second send is attempted only if the first
succeeded; `errors = 0` only after both sends succeed. -/
def send_msg (headerOk dataOk : Bool) (msg : msg_t) (st : DeliveryState) :
    DeliveryState × List (List Nat) :=
  if st.client_socket < 0 then (st, [])
  else
    let hdrBytes := encodeHeader msg.header
    if headerOk = false then
      if st.errors > 10 then
        ({ client_socket := -1, errors := st.errors + 1 }, [hdrBytes])
      else
        ({ st with errors := st.errors + 1 }, [hdrBytes])
    else
      let dataBytes := encodePayload msg.buffer
      if dataOk = false then
        if st.errors > 10 then
          ({ client_socket := -1, errors := st.errors + 1 },
            [hdrBytes, dataBytes])
        else
          ({ st with errors := st.errors + 1 }, [hdrBytes, dataBytes])
      else
        ({ st with errors := 0 }, [hdrBytes, dataBytes])

/-- A freshly connected delivery state: some nonnegative client socket,
failure counter 0 (its initial value as a C `static`). -/
def initState : DeliveryState := { client_socket := 0, errors := 0 }

/-- State after `k` calls of `send_msg` on a connection where every
write fails, starting from `initState`. -/
def afterFails (m : msg_t) : Nat → DeliveryState
  | 0 => initState
  | k + 1 => (send_msg false false m (afterFails m k)).1

/-- A concrete message used to instantiate delivery scenarios. -/
def msg0 : msg_t :=
  { header := { source := 0, metadata := 0, length := 0, timestamp := 0 },
    buffer := { data := [], bufEnd := 0 } }

/-- Group a little-endian byte stream back into 16-bit samples
(two bytes per sample, low byte first). -/
def bytesToSamples : List Nat → List Nat
  | b0 :: b1 :: rest => (b0 + 256 * b1) :: bytesToSamples rest
  | _ => []

/-- Modelled from the spec: the receiver-side decoder of the wire format.
The decoding client lives under `Software/` and is not part of the
sources here; the spec fixes the format as a 12-byte header — `source`
(1 byte), `metadata` (1 byte), `sampleCount` (2 bytes), `timestamp`
(8 bytes), little-endian — followed by exactly `sampleCount * 2` payload
bytes of 16-bit samples with no terminator. -/
def decodePacket (bytes : List Nat) : Option msg_t :=
  match bytes with
  | s :: md :: l0 :: l1 :: t0 :: t1 :: t2 :: t3 :: t4 :: t5 :: t6 :: t7 :: rest =>
    let len := l0 + 256 * l1
    let ts := t0 + 256 * (t1 + 256 * (t2 + 256 * (t3 + 256 * (t4 + 256 *
      (t5 + 256 * (t6 + 256 * t7))))))
    if rest.length = 2 * len then
      some { header := { source := s, metadata := md,
                         length := len, timestamp := ts },
             buffer := { data := bytesToSamples rest, bufEnd := len } }
    else none
  | _ => none

/-- Concrete message produced by `QI2Smsg 0 [5, 6] 2 0`. -/
def msgA : msg_t :=
  { header := { source := 0, metadata := 0, length := 1, timestamp := 0 },
    buffer := { data := [6], bufEnd := 1 } }

/-- Concrete message produced by `QADCmsg 0 [⟨2, 0xABC⟩] 4 0`. -/
def msgB : msg_t :=
  { header := { source := 1, metadata := 0, length := 1, timestamp := 0 },
    buffer := { data := [0x2ABC], bufEnd := 1 } }

/-! ## Helper lemmas -/

/-- Unfolding of `QI2Smsg` in the connected, capacity-respecting case. -/
theorem QI2Smsg_connected (cs : Int) (raw : List Nat) (size now : Nat)
    (hconn : 0 ≤ cs) (hle : size / 2 ≤ MIC_BUFFER_SIZE) :
    QI2Smsg cs raw size now = .enqueued
      { header := { source := SOURCE_MIC, metadata := 0,
                    length := size / 2 % 65536, timestamp := now },
        buffer := { data := (List.range (size / 2)).map
                      (fun j => raw.getD (2 * j + 1) 0),
                    bufEnd := size / 2 } } := by
  rw [QI2Smsg, if_neg (by omega), if_pos hle]

/-- Unfolding of `QADCmsg` in the connected, capacity-respecting case. -/
theorem QADCmsg_connected (cs : Int) (recs : List adc_digi_output_data_t)
    (size now : Nat) (hconn : 0 ≤ cs)
    (hle : size / SOC_ADC_DIGI_RESULT_BYTES ≤ ADC_BUFFER_SIZE) :
    QADCmsg cs recs size now = .enqueued
      { header := { source := SOURCE_ADC, metadata := 0,
                    length := size / SOC_ADC_DIGI_RESULT_BYTES % 65536,
                    timestamp := now },
        buffer := { data := (List.range (size / SOC_ADC_DIGI_RESULT_BYTES)).map
                      (fun i => packAdc (recs.getD i ⟨0, 0⟩).channel
                                        (recs.getD i ⟨0, 0⟩).data),
                    bufEnd := size / SOC_ADC_DIGI_RESULT_BYTES } } := by
  rw [QADCmsg, if_neg (by omega), if_pos hle]

/-- Inversion: any message `QI2Smsg` enqueues is the one built on the
connected, capacity-respecting path. -/
theorem QI2Smsg_enqueued_inv {cs : Int} {raw : List Nat} {size now : Nat}
    {m : msg_t} (h : QI2Smsg cs raw size now = .enqueued m) :
    0 ≤ cs ∧ size / 2 ≤ MIC_BUFFER_SIZE ∧
    m = { header := { source := SOURCE_MIC, metadata := 0,
                      length := size / 2 % 65536, timestamp := now },
          buffer := { data := (List.range (size / 2)).map
                        (fun j => raw.getD (2 * j + 1) 0),
                      bufEnd := size / 2 } } := by
  by_cases hc : cs < 0
  · rw [QI2Smsg, if_pos hc] at h
    exact absurd h (by simp)
  · by_cases hl : size / 2 ≤ MIC_BUFFER_SIZE
    · rw [QI2Smsg_connected cs raw size now (by omega) hl] at h
      injection h with h
      exact ⟨by omega, hl, h.symm⟩
    · rw [QI2Smsg, if_neg hc, if_neg hl] at h
      exact absurd h (by simp)

/-- Inversion: any message `QADCmsg` enqueues is the one built on the
connected, capacity-respecting path. -/
theorem QADCmsg_enqueued_inv {cs : Int} {recs : List adc_digi_output_data_t}
    {size now : Nat} {m : msg_t}
    (h : QADCmsg cs recs size now = .enqueued m) :
    0 ≤ cs ∧ size / SOC_ADC_DIGI_RESULT_BYTES ≤ ADC_BUFFER_SIZE ∧
    m = { header := { source := SOURCE_ADC, metadata := 0,
                      length := size / SOC_ADC_DIGI_RESULT_BYTES % 65536,
                      timestamp := now },
          buffer := { data := (List.range
                        (size / SOC_ADC_DIGI_RESULT_BYTES)).map
                        (fun i => packAdc (recs.getD i ⟨0, 0⟩).channel
                                          (recs.getD i ⟨0, 0⟩).data),
                      bufEnd := size / SOC_ADC_DIGI_RESULT_BYTES } } := by
  by_cases hc : cs < 0
  · rw [QADCmsg, if_pos hc] at h
    exact absurd h (by simp)
  · by_cases hl : size / SOC_ADC_DIGI_RESULT_BYTES ≤ ADC_BUFFER_SIZE
    · rw [QADCmsg_connected cs recs size now (by omega) hl] at h
      injection h with h
      exact ⟨by omega, hl, h.symm⟩
    · rw [QADCmsg, if_neg hc, if_neg hl] at h
      exact absurd h (by simp)

/-- Each serialized sample contributes exactly two bytes. -/
theorem toBytes_length (w n : Nat) : (toBytes w n).length = w := by
  induction w generalizing n with
  | zero => rfl
  | succ k ih => simp [toBytes, ih]

/-- Byte length of a flattened run of 2-byte serializations. -/
theorem flatten_map_toBytes_length (l : List Nat) :
    ((l.map (toBytes 2)).flatten).length = 2 * l.length := by
  induction l with
  | nil => rfl
  | cons x xs ih =>
    simp only [List.map_cons, List.flatten_cons, List.length_append, ih,
      toBytes_length, List.length_cons]
    omega

/-- The payload write carries `2 * end` bytes whenever the buffer really
holds `end` samples. -/
theorem encodePayload_length (b : buffer_t) (h : b.bufEnd ≤ b.data.length) :
    (encodePayload b).length = 2 * b.bufEnd := by
  unfold encodePayload
  rw [flatten_map_toBytes_length, List.length_take]
  omega

/-- The packed header serializes to its twelve bytes in declaration
order: 1-byte `source`, 1-byte `metadata`, 2-byte little-endian
`length`, 8-byte little-endian `timestamp`. -/
theorem encodeHeader_eq (h : packet_header_t) :
    encodeHeader h =
      [h.source % 256, h.metadata % 256,
       h.length % 256, h.length / 256 % 256,
       h.timestamp % 256, h.timestamp / 256 % 256,
       h.timestamp / 256 / 256 % 256,
       h.timestamp / 256 / 256 / 256 % 256,
       h.timestamp / 256 / 256 / 256 / 256 % 256,
       h.timestamp / 256 / 256 / 256 / 256 / 256 % 256,
       h.timestamp / 256 / 256 / 256 / 256 / 256 / 256 % 256,
       h.timestamp / 256 / 256 / 256 / 256 / 256 / 256 / 256 % 256] := rfl

/-- Grouping the two-bytes-per-sample stream back into samples is the
identity on any run of 16-bit values. -/
theorem bytesToSamples_flatten (l : List Nat) (h : ∀ x ∈ l, x < 65536) :
    bytesToSamples ((l.map (toBytes 2)).flatten) = l := by
  induction l with
  | nil => rfl
  | cons x xs ih =>
    have hx : x < 65536 := h x (by simp)
    have hxs : ∀ y ∈ xs, y < 65536 := fun y hy => h y (by simp [hy])
    show bytesToSamples
      (x % 256 :: x / 256 % 256 :: (xs.map (toBytes 2)).flatten) = x :: xs
    have hstep : bytesToSamples
        (x % 256 :: x / 256 % 256 :: (xs.map (toBytes 2)).flatten) =
        (x % 256 + 256 * (x / 256 % 256)) ::
          bytesToSamples ((xs.map (toBytes 2)).flatten) := rfl
    rw [hstep, ih hxs]
    congr 1
    omega

/-! ## Claims -/

/-- C1 (counterexample): on a connection where every write fails, the
connection is still open after the 11th consecutive failure, so the
`Connected → Disconnected` transition does not happen after the 11th
failure; and immediately after the transition (which happens during the
12th failing call) the consecutive-failure counter holds 12, not 0. -/
theorem disconnect_claim_counterexample :
    (afterFails msg0 11).client_socket ≠ -1 ∧
    (afterFails msg0 11).client_socket = 0 ∧
    (afterFails msg0 12).client_socket = -1 ∧
    (afterFails msg0 12).errors ≠ 0 ∧
    (afterFails msg0 12).errors = 12 := by decide

/-- C1 (amended): given a connection on which every write fails,
`client_socket` stays nonnegative (connected) through the first 11
consecutive failures with the failure counter equal to the number of
failures so far, and from the 12th failure on the socket is closed
(`client_socket = -1`) — so the transition happens exactly once, during
the 12th consecutive failure — with the counter left at 12, not reset
(`errors = 0` is only executed on a fully successful send). -/
theorem disconnect_after_twelfth_failure (m : msg_t) (k : Nat) :
    (k ≤ 11 → afterFails m k = { client_socket := 0, errors := k }) ∧
    (12 ≤ k → afterFails m k = { client_socket := -1, errors := 12 }) := by
  induction k with
  | zero => exact ⟨fun _ => rfl, fun h => absurd h (by omega)⟩
  | succ n ih =>
    constructor
    · intro h
      have h1 : afterFails m n = { client_socket := 0, errors := n } :=
        ih.1 (by omega)
      have hn : ¬ (n > 10) := by omega
      show (send_msg false false m (afterFails m n)).1 = _
      rw [h1, send_msg]
      simp [hn]
    · intro h
      rcases Nat.lt_or_ge n 12 with hn | hn
      · have hn11 : n = 11 := by omega
        subst hn11
        have h1 : afterFails m 11 = { client_socket := 0, errors := 11 } :=
          ih.1 (by omega)
        show (send_msg false false m (afterFails m 11)).1 = _
        rw [h1, send_msg]
        norm_num
      · have h1 : afterFails m n = { client_socket := -1, errors := 12 } :=
          ih.2 hn
        show (send_msg false false m (afterFails m n)).1 = _
        rw [h1, send_msg]
        norm_num

/-- C1 (witness): instantiating the amended theorem at the 12th failure. -/
theorem disconnect_after_twelfth_failure_w :
    afterFails msg0 12 = { client_socket := -1, errors := 12 } :=
  (disconnect_after_twelfth_failure msg0 12).2 (by decide)

/-- C2 (counterexample): a block whose decoded count exceeds the declared
capacity (513 > 256 mono samples; 257 > 256 ADC records) makes the
producer's `assert` fire — under ESP-IDF an `assert` failure aborts the
whole process — rather than dropping the block and continuing. -/
theorem capacity_overflow_counterexample :
    QI2Smsg 0 [] 1026 0 = .assertFail ∧
    QADCmsg 0 [] 1028 0 = .assertFail ∧
    QI2Smsg 0 [] 1026 0 ≠ .dropped ∧
    QADCmsg 0 [] 1028 0 ≠ .dropped := by decide

/-- C2 (amended): whenever a client is connected and the decoded
sample/record count exceeds the per-source capacity (256), the producer's
`assert(...)` fails; on this platform an assertion failure aborts the
whole process, so the condition is fatal to the process, not merely to
the block — the task does not log, drop the block and continue. -/
theorem capacity_overflow_aborts (cs : Int) (raw : List Nat)
    (recs : List adc_digi_output_data_t) (s1 s2 t1 t2 : Nat)
    (hconn : 0 ≤ cs) (h1 : MIC_BUFFER_SIZE < s1 / 2)
    (h2 : ADC_BUFFER_SIZE < s2 / SOC_ADC_DIGI_RESULT_BYTES) :
    QI2Smsg cs raw s1 t1 = .assertFail ∧
    QADCmsg cs recs s2 t2 = .assertFail := by
  constructor
  · rw [QI2Smsg, if_neg (by omega), if_neg (by omega)]
  · rw [QADCmsg, if_neg (by omega), if_neg (by omega)]

/-- C2 (witness): the amended theorem at concrete oversize blocks. -/
theorem capacity_overflow_aborts_w :
    QI2Smsg 0 [] 1026 0 = .assertFail ∧ QADCmsg 0 [] 1028 0 = .assertFail :=
  capacity_overflow_aborts 0 [] [] 1026 1028 0 0 (by decide) (by decide)
    (by decide)

/-- C3: every raw interleaved audio block of at most `2 * MIC_BUFFER_SIZE`
raw samples (the I2S read buffer size) processed while a client is
connected yields an enqueued message with `source = SOURCE_MIC`,
`sampleCount = rawCount / 2`, and `payload[j] = raw[2*j + 1]` for every
`j < rawCount / 2` — the even-indexed raw samples are discarded. -/
theorem audio_skip_policy (cs : Int) (raw : List Nat) (size now : Nat)
    (hconn : 0 ≤ cs) (hsize : size ≤ 2 * MIC_BUFFER_SIZE) :
    ∃ m, QI2Smsg cs raw size now = .enqueued m ∧
      m.header.source = SOURCE_MIC ∧
      m.header.length = size / 2 ∧
      m.buffer.bufEnd = size / 2 ∧
      m.buffer.data.length = size / 2 ∧
      ∀ j, j < size / 2 → m.buffer.data.getD j 0 = raw.getD (2 * j + 1) 0 := by
  have hb : size ≤ 512 := hsize
  have hle : size / 2 ≤ MIC_BUFFER_SIZE := by
    show size / 2 ≤ 256
    omega
  refine ⟨_, QI2Smsg_connected cs raw size now hconn hle, rfl, ?_, rfl, ?_, ?_⟩
  · show size / 2 % 65536 = size / 2
    omega
  · show ((List.range (size / 2)).map _).length = size / 2
    simp
  · intro j hj
    show ((List.range (size / 2)).map
      (fun j => raw.getD (2 * j + 1) 0)).getD j 0 = raw.getD (2 * j + 1) 0
    rw [List.getD_eq_getElem _ _ (by simpa using hj)]
    simp

/-- C3 (witness): the 512-raw-sample block `[0, 1, ..., 511]` yields
`sampleCount = 256` and payload `[1, 3, 5, ..., 511]`. -/
theorem audio_skip_policy_w :
    ∃ m, QI2Smsg 0 (List.range 512) 512 0 = .enqueued m ∧
      m.header.source = SOURCE_MIC ∧
      m.header.length = 256 ∧
      m.buffer.bufEnd = 256 ∧
      m.buffer.data.length = 256 ∧
      ∀ j, j < 256 → m.buffer.data.getD j 0 = 2 * j + 1 := by
  obtain ⟨m, h1, h2, h3, h4, h5, h6⟩ :=
    audio_skip_policy 0 (List.range 512) 512 0 (by decide) (by decide)
  refine ⟨m, h1, h2, by simpa using h3, by simpa using h4, by simpa using h5,
    fun j hj => ?_⟩
  rw [h6 j (by omega)]
  rw [List.getD_eq_getElem _ _ (by simp; omega)]
  simp

/-- C4: every ADC block of at most `ADC_BUFFER_SIZE` conversion records
(the DMA frame size) processed while a client is connected yields an
enqueued message with `source = SOURCE_ADC`, `sampleCount` equal to the
record count, and each sample packed as
`(channel & 0xF) << 12 | (data & 0xFFF)`; in particular
`channel = 2, data = 0xABC` packs to `0x2ABC`. -/
theorem adc_packing (cs : Int) (recs : List adc_digi_output_data_t)
    (size now : Nat) (hconn : 0 ≤ cs)
    (hsize : size ≤ ADC_BUFFER_SIZE * SOC_ADC_DIGI_RESULT_BYTES) :
    ∃ m, QADCmsg cs recs size now = .enqueued m ∧
      m.header.source = SOURCE_ADC ∧
      m.header.length = size / SOC_ADC_DIGI_RESULT_BYTES ∧
      m.buffer.bufEnd = size / SOC_ADC_DIGI_RESULT_BYTES ∧
      (∀ i, i < size / SOC_ADC_DIGI_RESULT_BYTES →
        m.buffer.data.getD i 0 =
          (((recs.getD i ⟨0, 0⟩).channel &&& 0xF) <<< 12) |||
            ((recs.getD i ⟨0, 0⟩).data &&& 0xFFF)) ∧
      packAdc 2 0xABC = 0x2ABC := by
  have hb : size ≤ 1024 := hsize
  have hle : size / SOC_ADC_DIGI_RESULT_BYTES ≤ ADC_BUFFER_SIZE := by
    show size / 4 ≤ 256
    omega
  refine ⟨_, QADCmsg_connected cs recs size now hconn hle, rfl, ?_, rfl, ?_,
    by decide⟩
  · show size / 4 % 65536 = size / 4
    omega
  · intro i hi
    show ((List.range (size / SOC_ADC_DIGI_RESULT_BYTES)).map
      (fun i => packAdc (recs.getD i ⟨0, 0⟩).channel
        (recs.getD i ⟨0, 0⟩).data)).getD i 0 = _
    rw [List.getD_eq_getElem _ _ (by simpa using hi)]
    simp [packAdc]

/-- C4 (witness): one record with `channel = 2, data = 0xABC` yields a
one-sample ADC message whose sample is `0x2ABC`. -/
theorem adc_packing_w :
    ∃ m, QADCmsg 0 [⟨2, 0xABC⟩] 4 0 = .enqueued m ∧
      m.header.source = SOURCE_ADC ∧
      m.header.length = 1 ∧
      m.buffer.bufEnd = 1 ∧
      m.buffer.data.getD 0 0 = 0x2ABC := by
  obtain ⟨m, h1, h2, h3, h4, h5, -⟩ :=
    adc_packing 0 [⟨2, 0xABC⟩] 4 0 (by decide) (by decide)
  exact ⟨m, h1, h2, by simpa using h3, by simpa using h4,
    (h5 0 (by decide)).trans (by decide)⟩

/-- C5: while `client_socket` is negative (ConnectionState Disconnected),
both producers drop the block before building any message: the result is
`.dropped`, no `msg_t` is constructed or enqueued, and the outbound queue
is left exactly as it was. -/
theorem producers_gate_on_connection (cs : Int) (raw : List Nat)
    (recs : List adc_digi_output_data_t) (s1 s2 t1 t2 : Nat) (h : cs < 0) :
    QI2Smsg cs raw s1 t1 = .dropped ∧
    QADCmsg cs recs s2 t2 = .dropped ∧
    (∀ q : List msg_t, enqueueResult q (QI2Smsg cs raw s1 t1) = q) ∧
    (∀ q : List msg_t, enqueueResult q (QADCmsg cs recs s2 t2) = q) := by
  have e1 : QI2Smsg cs raw s1 t1 = .dropped := by rw [QI2Smsg, if_pos h]
  have e2 : QADCmsg cs recs s2 t2 = .dropped := by rw [QADCmsg, if_pos h]
  exact ⟨e1, e2, fun q => by rw [e1]; rfl, fun q => by rw [e2]; rfl⟩

/-- C5 (witness): the gate at a concrete disconnected socket value. -/
theorem producers_gate_on_connection_w :
    QI2Smsg (-1) [5, 6] 2 0 = .dropped ∧
    QADCmsg (-1) [⟨2, 0xABC⟩] 4 0 = .dropped ∧
    (∀ q : List msg_t, enqueueResult q (QI2Smsg (-1) [5, 6] 2 0) = q) ∧
    (∀ q : List msg_t, enqueueResult q (QADCmsg (-1) [⟨2, 0xABC⟩] 4 0) = q) :=
  producers_gate_on_connection (-1) [5, 6] [⟨2, 0xABC⟩] 2 4 0 0 (by decide)

/-- C6: for every message sent while connected with both writes
succeeding, `send_msg` performs exactly two ordered writes — first the
12-byte packed header (`source`, `metadata`, 16-bit `sampleCount`,
64-bit `timestamp`, little-endian, in that order), then exactly
`sampleCount * 2` payload bytes with no terminator — and resets the
failure counter. -/
theorem delivery_two_ordered_writes (m : msg_t) (st : DeliveryState)
    (hconn : 0 ≤ st.client_socket)
    (hdata : m.buffer.bufEnd ≤ m.buffer.data.length)
    (hcnt : m.header.length = m.buffer.bufEnd) :
    (send_msg true true m st).2 =
      [encodeHeader m.header, encodePayload m.buffer] ∧
    (send_msg true true m st).1 = { st with errors := 0 } ∧
    (encodeHeader m.header).length = 12 ∧
    encodeHeader m.header =
      [m.header.source % 256, m.header.metadata % 256,
       m.header.length % 256, m.header.length / 256 % 256,
       m.header.timestamp % 256, m.header.timestamp / 256 % 256,
       m.header.timestamp / 256 / 256 % 256,
       m.header.timestamp / 256 / 256 / 256 % 256,
       m.header.timestamp / 256 / 256 / 256 / 256 % 256,
       m.header.timestamp / 256 / 256 / 256 / 256 / 256 % 256,
       m.header.timestamp / 256 / 256 / 256 / 256 / 256 / 256 % 256,
       m.header.timestamp / 256 / 256 / 256 / 256 / 256 / 256 / 256 % 256] ∧
    (encodePayload m.buffer).length = 2 * m.header.length := by
  have hsend : send_msg true true m st =
      ({ st with errors := 0 },
        [encodeHeader m.header, encodePayload m.buffer]) := by
    rw [send_msg, if_neg (by omega)]
    simp
  refine ⟨by rw [hsend], by rw [hsend], rfl, encodeHeader_eq m.header, ?_⟩
  rw [hcnt]
  exact encodePayload_length _ hdata

/-- C6 (witness): the two writes for a concrete connected delivery of a
one-sample message. -/
theorem delivery_two_ordered_writes_w :
    (send_msg true true msgA { client_socket := 0, errors := 3 }).2 =
      [encodeHeader msgA.header, encodePayload msgA.buffer] ∧
    (send_msg true true msgA { client_socket := 0, errors := 3 }).1 =
      { client_socket := 0, errors := 0 } ∧
    (encodeHeader msgA.header).length = 12 ∧
    encodeHeader msgA.header =
      [msgA.header.source % 256, msgA.header.metadata % 256,
       msgA.header.length % 256, msgA.header.length / 256 % 256,
       msgA.header.timestamp % 256, msgA.header.timestamp / 256 % 256,
       msgA.header.timestamp / 256 / 256 % 256,
       msgA.header.timestamp / 256 / 256 / 256 % 256,
       msgA.header.timestamp / 256 / 256 / 256 / 256 % 256,
       msgA.header.timestamp / 256 / 256 / 256 / 256 / 256 % 256,
       msgA.header.timestamp / 256 / 256 / 256 / 256 / 256 / 256 % 256,
       msgA.header.timestamp / 256 / 256 / 256 / 256 / 256 / 256 / 256
         % 256] ∧
    (encodePayload msgA.buffer).length = 2 * msgA.header.length :=
  delivery_two_ordered_writes msgA { client_socket := 0, errors := 3 }
    (by decide) (by decide) (by decide)

/-- C7: decoding the exact bytes of the two writes (header, then
payload) reproduces the message exactly — the wire encoding composed
with the decoder is the identity, for any message whose fields fit their
declared widths and whose buffer really holds `sampleCount` samples. -/
theorem encode_decode_roundtrip (m : msg_t)
    (hs : m.header.source < 256) (hmd : m.header.metadata < 256)
    (hl : m.header.length < 65536) (ht : m.header.timestamp < 2 ^ 64)
    (hcnt : m.header.length = m.buffer.bufEnd)
    (hdata : m.buffer.data.length = m.buffer.bufEnd)
    (hsamp : ∀ x ∈ m.buffer.data, x < 65536) :
    decodePacket (encodePacket m) = some m := by
  obtain ⟨⟨s, md, len, ts⟩, data, e⟩ := m
  simp only at hs hmd hl ht hcnt hdata hsamp
  have hpay : encodePayload ⟨data, e⟩ = (data.map (toBytes 2)).flatten := by
    unfold encodePayload
    simp only
    rw [← hdata, List.take_length]
  have hlenpay : ((data.map (toBytes 2)).flatten).length = 2 * len := by
    rw [flatten_map_toBytes_length]
    omega
  show decodePacket
    (encodeHeader ⟨s, md, len, ts⟩ ++ encodePayload ⟨data, e⟩) = _
  rw [hpay, encodeHeader_eq]
  simp only [List.cons_append, List.nil_append, decodePacket]
  have hlen2 : len % 256 + 256 * (len / 256 % 256) = len := by omega
  have hts : ts % 256 + 256 * (ts / 256 % 256 + 256 * (ts / 256 / 256 % 256 +
      256 * (ts / 256 / 256 / 256 % 256 +
      256 * (ts / 256 / 256 / 256 / 256 % 256 +
      256 * (ts / 256 / 256 / 256 / 256 / 256 % 256 +
      256 * (ts / 256 / 256 / 256 / 256 / 256 / 256 % 256 +
      256 * (ts / 256 / 256 / 256 / 256 / 256 / 256 / 256 % 256))))))) =
      ts := by omega
  rw [hlen2, if_pos hlenpay, hts, Nat.mod_eq_of_lt hs, Nat.mod_eq_of_lt hmd,
    bytesToSamples_flatten data hsamp, hcnt]

/-- C7 (witness): the round trip at a concrete two-sample ADC message. -/
theorem encode_decode_roundtrip_w :
    decodePacket (encodePacket
      { header := { source := 1, metadata := 0, length := 2,
                    timestamp := 123456789 },
        buffer := { data := [0x2ABC, 0x1FFF], bufEnd := 2 } }) =
    some { header := { source := 1, metadata := 0, length := 2,
                       timestamp := 123456789 },
           buffer := { data := [0x2ABC, 0x1FFF], bufEnd := 2 } } :=
  encode_decode_roundtrip _ (by decide) (by decide) (by decide) (by decide)
    (by decide) (by decide) (by decide)

/-- C8: every message the microphone producer enqueues has
`source = SOURCE_MIC` and at most 256 samples, and every message the ADC
producer enqueues has `source = SOURCE_ADC` and at most 256 samples
(the capacity `assert` guards every enqueue). -/
theorem frame_invariants (cs1 cs2 : Int) (raw : List Nat)
    (recs : List adc_digi_output_data_t) (s1 s2 t1 t2 : Nat) (m1 m2 : msg_t)
    (h1 : QI2Smsg cs1 raw s1 t1 = .enqueued m1)
    (h2 : QADCmsg cs2 recs s2 t2 = .enqueued m2) :
    (m1.header.source = SOURCE_MIC ∧ m1.header.length ≤ 256 ∧
      m1.buffer.bufEnd ≤ 256) ∧
    (m2.header.source = SOURCE_ADC ∧ m2.header.length ≤ 256 ∧
      m2.buffer.bufEnd ≤ 256) := by
  obtain ⟨-, hle1, rfl⟩ := QI2Smsg_enqueued_inv h1
  obtain ⟨-, hle2, rfl⟩ := QADCmsg_enqueued_inv h2
  have b1 : s1 / 2 ≤ 256 := hle1
  have b2 : s2 / 4 ≤ 256 := hle2
  refine ⟨⟨rfl, ?_, ?_⟩, ⟨rfl, ?_, ?_⟩⟩
  · show s1 / 2 % 65536 ≤ 256
    omega
  · show s1 / 2 ≤ 256
    omega
  · show s2 / 4 % 65536 ≤ 256
    omega
  · show s2 / 4 ≤ 256
    omega

/-- C8 (witness): the invariants at two concrete one-sample blocks. -/
theorem frame_invariants_w :
    (msgA.header.source = SOURCE_MIC ∧ msgA.header.length ≤ 256 ∧
      msgA.buffer.bufEnd ≤ 256) ∧
    (msgB.header.source = SOURCE_ADC ∧ msgB.header.length ≤ 256 ∧
      msgB.buffer.bufEnd ≤ 256) :=
  frame_invariants 0 0 [5, 6] [⟨2, 0xABC⟩] 2 4 0 0 msgA msgB
    (by decide) (by decide)

/-- C9: every message either producer enqueues announces in
`header.length` exactly the sample count `buffer.end` that sizes the
payload write, so the payload byte count the delivery path sends
(`2 * buffer.end`) is exactly `2 * header.length`, the byte count the
wire header announces. -/
theorem header_length_matches_payload (cs1 cs2 : Int) (raw : List Nat)
    (recs : List adc_digi_output_data_t) (s1 s2 t1 t2 : Nat) (m1 m2 : msg_t)
    (h1 : QI2Smsg cs1 raw s1 t1 = .enqueued m1)
    (h2 : QADCmsg cs2 recs s2 t2 = .enqueued m2) :
    (m1.header.length = m1.buffer.bufEnd ∧
      (encodePayload m1.buffer).length = 2 * m1.header.length) ∧
    (m2.header.length = m2.buffer.bufEnd ∧
      (encodePayload m2.buffer).length = 2 * m2.header.length) := by
  obtain ⟨-, hle1, rfl⟩ := QI2Smsg_enqueued_inv h1
  obtain ⟨-, hle2, rfl⟩ := QADCmsg_enqueued_inv h2
  have b1 : s1 / 2 ≤ 256 := hle1
  have b2 : s2 / 4 ≤ 256 := hle2
  have e1 : s1 / 2 % 65536 = s1 / 2 := by omega
  have e2 : s2 / 4 % 65536 = s2 / 4 := by omega
  constructor
  · constructor
    · show s1 / 2 % 65536 = s1 / 2
      exact e1
    · rw [encodePayload_length _ (by simp)]
      show 2 * (s1 / 2) = 2 * (s1 / 2 % 65536)
      omega
  · constructor
    · show s2 / 4 % 65536 = s2 / 4
      exact e2
    · rw [encodePayload_length _ (by simp)]
      show 2 * (s2 / 4) = 2 * (s2 / 4 % 65536)
      omega

/-- C9 (witness): the header/payload length agreement at two concrete
enqueued messages. -/
theorem header_length_matches_payload_w :
    (msgA.header.length = msgA.buffer.bufEnd ∧
      (encodePayload msgA.buffer).length = 2 * msgA.header.length) ∧
    (msgB.header.length = msgB.buffer.bufEnd ∧
      (encodePayload msgB.buffer).length = 2 * msgB.header.length) :=
  header_length_matches_payload 0 0 [5, 6] [⟨2, 0xABC⟩] 2 4 0 0 msgA msgB
    (by decide) (by decide)

/-- C10: when `send_msg` runs while no client socket exists
(`client_socket < 0`), it is a pure no-op on delivery state: no write is
attempted for header or payload, and both the socket and the
consecutive-failure counter are returned unchanged. -/
theorem send_msg_disconnected_noop (headerOk dataOk : Bool) (m : msg_t)
    (st : DeliveryState) (h : st.client_socket < 0) :
    send_msg headerOk dataOk m st = (st, []) := by
  rw [send_msg, if_pos h]

/-- C10 (witness): discarding at a concrete disconnected state with a
nonzero failure counter leaves the state bit-for-bit unchanged. -/
theorem send_msg_disconnected_noop_w :
    send_msg true false msg0 { client_socket := -1, errors := 3 } =
      ({ client_socket := -1, errors := 3 }, []) :=
  send_msg_disconnected_noop true false msg0
    { client_socket := -1, errors := 3 } (by decide)

end Murmurations
